import Mathlib

/-!
Verification model of the zerver web-server core (`server.go` of packages
`zerver` and `zerver_rest`, plus the component dependency-cycle test).
Pure Lean embeddings of the dispatch path, filter-chain composition,
graceful shutdown, connection accounting, task firing and lazy component
resolution, with theorems checking the specified behaviour.
-/

namespace Zerver

/-- HTTP-level status outcomes reported by the response object.
`Response.ReportNotFound` writes 404 and `Response.ReportMethodNotAllowed`
writes 405 (standard `net/http` status constants used by `serveHTTP`). -/
inductive Status where
  | notFound
  | methodNotAllowed
deriving DecidableEq

/-- Numeric HTTP code of each reported status, as in `net/http`. -/
def statusCode : Status → Nat
  | Status.notFound => 404
  | Status.methodNotAllowed => 405

/-- Observable actions of one request dispatch: a filter running, the
per-method handler running, or a status being reported on the response. -/
inductive Act where
  | filt (label : String)
  | handle (label : String)
  | report (s : Status)
deriving DecidableEq

/-- Modelled from the spec: a `Filter` is a pre/post-processing step that,
per invocation, either acts and then invokes the wrapped link (`proceeds =
true`) or acts and short-circuits by not invoking it (`proceeds = false`).
The filter implementation type is not among the sources; only its
composition sites in `serveHTTP` are. Each filter is identified by a label. -/
structure Filter where
  label : String
  proceeds : Bool
deriving DecidableEq

/-- Modelled from the spec: `newFilterChain(filters, chain)` composes the
filters around the terminal chain so that each filter wraps the next and the
last filter wraps the terminal; a `nil` terminal chain (here the empty
action list) is a no-op. The chain-builder source is not among the sources;
only its call sites in `serveHTTP` are. The result is the list of actions
executed when the composed chain runs. -/
def newFilterChain (filters : List Filter) (chain : List Act) : List Act :=
  match filters with
  | [] => chain
  | f :: fs =>
    if f.proceeds then Act.filt f.label :: newFilterChain fs chain
    else [Act.filt f.label]

/-- Embedding of `Server.serveHTTP` (package `zerver`, server.go): after the
router matched (`handler` is the matched route's per-method handler table,
or `none` when no pattern matched; `rfs` the route filters), the response
status is reported for a missing route (404) or a missing method handler
(405), and then the chain
`newFilterChain(RootFilters.Filters(url), newFilterChain(filters, chain))`
runs, with `chain` nil exactly in those two cases. Returns the list of
observable actions in execution order. -/
def serveHTTP (roots : List Filter) (handler : Option (String → Option String))
    (rfs : List Filter) (method : String) : List Act :=
  match handler with
  | none =>
    Act.report Status.notFound :: newFilterChain roots (newFilterChain rfs [])
  | some hs =>
    match hs method with
    | none =>
      Act.report Status.methodNotAllowed ::
        newFilterChain roots (newFilterChain rfs [])
    | some h => newFilterChain roots (newFilterChain rfs [Act.handle h])

/-- Embedding of the path normalization in `Server.ServeHTTP` (package
`zerver`, server.go): `if l := len(path); l > 1 && path[l-1] == '/' {
request.URL.Path = path[:l-1] }`. The path is a list of characters. -/
def normalizePath (path : List Char) : List Char :=
  if 1 < path.length ∧ path.getLast? = some '/' then path.dropLast else path

/-- Dispatch without normalization: match the given path with the router and
run `serveHTTP` on the result. -/
def dispatch (router : List Char → Option (String → Option String) × List Filter)
    (roots : List Filter) (method : String) (path : List Char) : List Act :=
  serveHTTP roots (router path).1 (router path).2 method

/-- Embedding of `Server.ServeHTTP` (package `zerver`, server.go): normalize
the trailing slash, then match and dispatch (the non-websocket branch). -/
def ServeHTTP (router : List Char → Option (String → Option String) × List Filter)
    (roots : List Filter) (method : String) (path : List Char) : List Act :=
  dispatch router roots method (normalizePath path)

/-- The statuses reported during a dispatch, in order. -/
def reports (acts : List Act) : List Status :=
  acts.filterMap fun a =>
    match a with
    | Act.report s => some s
    | _ => none

theorem newFilterChain_report_free (fs : List Filter) (tail : List Act)
    (h : ∀ s, Act.report s ∉ tail) :
    ∀ s, Act.report s ∉ newFilterChain fs tail := by
  induction fs with
  | nil => simpa [newFilterChain] using h
  | cons f fs ih =>
    intro s
    by_cases hp : f.proceeds
    · simp [newFilterChain, hp]
      exact ih s
    · simp [newFilterChain, hp]

theorem newFilterChain_handle_free (fs : List Filter) (tail : List Act)
    (h : ∀ l, Act.handle l ∉ tail) :
    ∀ l, Act.handle l ∉ newFilterChain fs tail := by
  induction fs with
  | nil => simpa [newFilterChain] using h
  | cons f fs ih =>
    intro l
    by_cases hp : f.proceeds
    · simp [newFilterChain, hp]
      exact ih l
    · simp [newFilterChain, hp]

/-- C2: for a request whose path matched a registered route, a missing
per-method handler yields exactly a method-not-allowed report (code 405),
and a not-found report (code 404) occurs exactly when no route matched at
all; the two codes are distinct. -/
theorem C2_method_not_allowed_vs_not_found
    (roots rfs : List Filter) (hs : String → Option String) (m : String) :
    (Act.report Status.methodNotAllowed ∈ serveHTTP roots (some hs) rfs m ↔
      hs m = none) ∧
    (∀ hOpt : Option (String → Option String),
      Act.report Status.notFound ∈ serveHTTP roots hOpt rfs m ↔ hOpt = none) ∧
    statusCode Status.methodNotAllowed = 405 ∧
    statusCode Status.notFound = 404 := by
  have hfree : ∀ (t : List Act) (ht : ∀ s, Act.report s ∉ t) (s : Status),
      Act.report s ∉ newFilterChain roots (newFilterChain rfs t) := by
    intro t ht
    exact newFilterChain_report_free roots _
      (newFilterChain_report_free rfs t ht)
  refine ⟨?_, ?_, rfl, rfl⟩
  · constructor
    · intro hmem
      cases hcase : hs m with
      | none => rfl
      | some h =>
        exfalso
        rw [serveHTTP, hcase] at hmem
        exact hfree [Act.handle h] (by simp) Status.methodNotAllowed hmem
    · intro hnone
      rw [serveHTTP, hnone]
      exact List.mem_cons_self _ _
  · intro hOpt
    constructor
    · intro hmem
      cases hOpt with
      | none => rfl
      | some hs' =>
        exfalso
        cases hcase : hs' m with
        | none =>
          rw [serveHTTP, hcase] at hmem
          rcases List.mem_cons.1 hmem with heq | hmem'
          · exact Status.noConfusion (Act.report.inj heq)
          · exact hfree [] (by simp) Status.notFound hmem'
        | some h =>
          rw [serveHTTP, hcase] at hmem
          exact hfree [Act.handle h] (by simp) Status.notFound hmem
    · intro hnone
      subst hnone
      rw [serveHTTP]
      exact List.mem_cons_self _ _

theorem newFilterChain_append (gs rs : List Filter) (t : List Act) :
    newFilterChain gs (newFilterChain rs t) = newFilterChain (gs ++ rs) t := by
  induction gs with
  | nil => rfl
  | cons f fs ih =>
    by_cases hp : f.proceeds <;> simp [newFilterChain, hp, ih]

theorem newFilterChain_all_proceed (fs : List Filter) (t : List Act)
    (h : ∀ f ∈ fs, f.proceeds = true) :
    newFilterChain fs t = fs.map (fun f => Act.filt f.label) ++ t := by
  induction fs with
  | nil => rfl
  | cons f fs ih =>
    have hf : f.proceeds = true := h f (List.mem_cons_self _ _)
    have hrest : ∀ g ∈ fs, g.proceeds = true := fun g hg =>
      h g (List.mem_cons_of_mem _ hg)
    simp [newFilterChain, hf, ih hrest]

theorem newFilterChain_stop (pre : List Filter) (f : Filter) (post : List Filter)
    (t : List Act) (hpre : ∀ g ∈ pre, g.proceeds = true)
    (hf : f.proceeds = false) :
    newFilterChain (pre ++ f :: post) t =
      pre.map (fun g => Act.filt g.label) ++ [Act.filt f.label] := by
  induction pre with
  | nil => simp [newFilterChain, hf]
  | cons g gs ih =>
    have hg : g.proceeds = true := hpre g (List.mem_cons_self _ _)
    have hrest : ∀ g' ∈ gs, g'.proceeds = true := fun g' hg' =>
      hpre g' (List.mem_cons_of_mem _ hg')
    simp [newFilterChain, hg, ih hrest]

/-- C3: with global filters `roots`, route filters `rfs` and a handler for
the request method, the composed chain executes each global filter, then
each route filter, then the handler, in order; and if the filters up to some
filter `f` all proceed but `f` short-circuits, execution is exactly the
proceeding prefix followed by `f` — no later filter and no handler runs. -/
theorem C3_filter_order (roots rfs : List Filter) (hs : String → Option String)
    (m h : String) (hh : hs m = some h) :
    ((∀ f ∈ roots ++ rfs, f.proceeds = true) →
      serveHTTP roots (some hs) rfs m =
        (roots ++ rfs).map (fun f => Act.filt f.label) ++ [Act.handle h]) ∧
    (∀ pre f post, roots ++ rfs = pre ++ f :: post →
      (∀ g ∈ pre, g.proceeds = true) → f.proceeds = false →
      serveHTTP roots (some hs) rfs m =
        pre.map (fun g => Act.filt g.label) ++ [Act.filt f.label]) := by
  constructor
  · intro hall
    simp only [serveHTTP, hh, newFilterChain_append]
    exact newFilterChain_all_proceed _ _ hall
  · intro pre f post hsplit hpre hf
    simp only [serveHTTP, hh, newFilterChain_append, hsplit]
    exact newFilterChain_stop pre f post _ hpre hf

/-- C3 witness: global filter C, route filters A and B, handler H; when all
proceed the order is C, A, B, H; when A short-circuits only C and A run. -/
theorem C3_filter_order_witness :
    serveHTTP [⟨"C", true⟩] (some fun _ => some "H")
        [⟨"A", true⟩, ⟨"B", true⟩] "GET" =
      [Act.filt "C", Act.filt "A", Act.filt "B", Act.handle "H"] ∧
    serveHTTP [⟨"C", true⟩] (some fun _ => some "H")
        [⟨"A", false⟩, ⟨"B", true⟩] "GET" =
      [Act.filt "C", Act.filt "A"] := by
  constructor
  · have h := (C3_filter_order [⟨"C", true⟩] [⟨"A", true⟩, ⟨"B", true⟩]
      (fun _ => some "H") "GET" "H" rfl).1 (by decide)
    simpa using h
  · have h := (C3_filter_order [⟨"C", true⟩] [⟨"A", false⟩, ⟨"B", true⟩]
      (fun _ => some "H") "GET" "H" rfl).2 [⟨"C", true⟩] ⟨"A", false⟩
      [⟨"B", true⟩] rfl (by decide) rfl
    simpa using h

theorem reports_cons_report (s : Status) (acts : List Act) :
    reports (Act.report s :: acts) = s :: reports acts := rfl

theorem reports_eq_nil (acts : List Act) (h : ∀ s, Act.report s ∉ acts) :
    reports acts = [] := by
  induction acts with
  | nil => rfl
  | cons a rest ih =>
    have hrest : ∀ s, Act.report s ∉ rest := fun s hs =>
      h s (List.mem_cons_of_mem _ hs)
    cases a with
    | filt l => simpa [reports, List.filterMap] using ih hrest
    | handle l => simpa [reports, List.filterMap] using ih hrest
    | report s => exact absurd (List.mem_cons_self _ _) (h s)

/-- C9: when no handler is found — the route is absent, or present with no
handler for the method — the dispatch reports exactly the one appropriate
status (404 resp. 405) and no per-method handler action ever executes. -/
theorem C9_degenerate_chain (roots rfs : List Filter) (m : String) :
    (reports (serveHTTP roots none rfs m) = [Status.notFound] ∧
      ∀ l, Act.handle l ∉ serveHTTP roots none rfs m) ∧
    (∀ hs : String → Option String, hs m = none →
      reports (serveHTTP roots (some hs) rfs m) = [Status.methodNotAllowed] ∧
      ∀ l, Act.handle l ∉ serveHTTP roots (some hs) rfs m) := by
  have hrfree : ∀ s, Act.report s ∉ newFilterChain roots (newFilterChain rfs []) :=
    newFilterChain_report_free roots _
      (newFilterChain_report_free rfs [] (by simp))
  have hhfree : ∀ l, Act.handle l ∉ newFilterChain roots (newFilterChain rfs []) :=
    newFilterChain_handle_free roots _
      (newFilterChain_handle_free rfs [] (by simp))
  constructor
  · constructor
    · simp only [serveHTTP]
      rw [reports_cons_report, reports_eq_nil _ hrfree]
    · intro l
      simp only [serveHTTP]
      intro hmem
      rcases List.mem_cons.1 hmem with heq | hmem'
      · exact Act.noConfusion heq
      · exact hhfree l hmem'
  · intro hs hnone
    constructor
    · simp only [serveHTTP, hnone]
      rw [reports_cons_report, reports_eq_nil _ hrfree]
    · intro l
      simp only [serveHTTP, hnone]
      intro hmem
      rcases List.mem_cons.1 hmem with heq | hmem'
      · exact Act.noConfusion heq
      · exact hhfree l hmem'

/-- C9 witness: with no filters, a GET request on an unmatched path reports
only 404; on a matched route with no GET handler it reports only 405, and in
neither case does a handler action run. -/
theorem C9_degenerate_chain_witness :
    (reports (serveHTTP [] none [] "GET") = [Status.notFound] ∧
      Act.handle "H" ∉ serveHTTP [] none [] "GET") ∧
    (reports (serveHTTP [] (some fun _ => none) [] "GET") =
        [Status.methodNotAllowed] ∧
      Act.handle "H" ∉ serveHTTP [] (some fun _ => none) [] "GET") := by
  refine ⟨⟨(C9_degenerate_chain [] [] "GET").1.1,
    (C9_degenerate_chain [] [] "GET").1.2 "H"⟩,
    ⟨((C9_degenerate_chain [] [] "GET").2 (fun _ => none) rfl).1,
    ((C9_degenerate_chain [] [] "GET").2 (fun _ => none) rfl).2 "H"⟩⟩

/-- C7: a request path longer than one character that ends in a slash is
dispatched exactly as its slash-stripped form (one trailing slash removed,
since appending the slash back restores the original path), and the root
path consisting of the single slash is dispatched unchanged. -/
theorem C7_trailing_slash
    (router : List Char → Option (String → Option String) × List Filter)
    (roots : List Filter) (m : String) (p : List Char)
    (h1 : 1 < p.length) (h2 : p.getLast? = some '/') :
    ServeHTTP router roots m p = dispatch router roots m p.dropLast ∧
    p.dropLast ++ ['/'] = p ∧
    ServeHTTP router roots m ['/'] = dispatch router roots m ['/'] := by
  have hne : p ≠ [] := by
    intro hcon
    rw [hcon] at h1
    exact absurd h1 (by simp)
  refine ⟨?_, ?_, ?_⟩
  · rw [ServeHTTP, normalizePath, if_pos ⟨h1, h2⟩]
  · have hlast : p.getLast hne = '/' := by
      have := List.getLast?_eq_getLast p hne
      rw [this] at h2
      exact (Option.some.inj h2).symm ▸ rfl
    calc p.dropLast ++ ['/'] = p.dropLast ++ [p.getLast hne] := by rw [hlast]
      _ = p := List.dropLast_append_getLast hne
  · rw [ServeHTTP, normalizePath]
    simp

/-- C7 witness: the path `/a/` is dispatched as `/a`, and appending the
slash back to `/a` yields `/a/` again; the root `/` dispatches unchanged. -/
theorem C7_trailing_slash_witness :
    ServeHTTP (fun _ => (none, [])) [] "GET" ['/', 'a', '/'] =
      dispatch (fun _ => (none, [])) [] "GET" ['/', 'a'] ∧
    (['/', 'a', '/'] : List Char).dropLast ++ ['/'] = ['/', 'a', '/'] ∧
    ServeHTTP (fun _ => (none, [])) [] "GET" ['/'] =
      dispatch (fun _ => (none, [])) [] "GET" ['/'] := by
  have h := C7_trailing_slash (fun _ => (none, [])) [] "GET" ['/', 'a', '/']
    (by decide) (by decide)
  simpa using h

/-- Server state constant `_NORMAL = 0` from server.go. -/
def NORMAL : Nat := 0

/-- Server state constant `_DESTROYED = 1` from server.go. -/
def DESTROYED : Nat := 1

/-- Side effects performed by `Server.Destroy`, in order: closing the
listener, the unbounded `activeConns.Wait()`, the `select` racing a timer
against the drain, and destroying root filters, router and components. -/
inductive DEvent where
  | closeListener
  | waitDrain
  | raceTimer
  | destroyRootFilters
  | destroyRouter
  | destroyComponents
deriving DecidableEq

/-- Embedding of `Server.Destroy(timeout)` (package `zerver`, server.go).
The state is the atomic `s.state`; `timeout` models the `time.Duration`
argument; `drained` is the oracle for the `select` outcome when
`timeout > 0`: true when the drain channel (closed once `activeConns.Wait()`
returns) is the case taken, false when the timer case is taken. Returns the
new state, the boolean `!isTimeout` returned by `Destroy`, and the ordered
list of side effects performed. A failed compare-and-swap (state not
`_NORMAL`) returns `false` with no side effects. -/
def Destroy (st : Nat) (timeout : Int) (drained : Bool) :
    Nat × Bool × List DEvent :=
  if st = NORMAL then
    let waitEvs := if 0 < timeout then [DEvent.raceTimer] else [DEvent.waitDrain]
    let isTimeout := if 0 < timeout then !drained else true
    (DESTROYED, !isTimeout,
      DEvent.closeListener :: waitEvs ++
        [DEvent.destroyRootFilters, DEvent.destroyRouter,
          DEvent.destroyComponents])
  else (st, false, [])

/-- C4: a `Destroy` call that performs the transition waits unboundedly on
the drain (and starts no timer race) when `timeout ≤ 0`; when `timeout > 0`
it races a timer against the drain and its boolean result is exactly
whether the drain completed before the timeout. -/
theorem C4_destroy_timeout (t : Int) (d : Bool) :
    (t ≤ 0 →
      DEvent.waitDrain ∈ (Destroy NORMAL t d).2.2 ∧
      DEvent.raceTimer ∉ (Destroy NORMAL t d).2.2) ∧
    (0 < t →
      DEvent.raceTimer ∈ (Destroy NORMAL t d).2.2 ∧
      DEvent.waitDrain ∉ (Destroy NORMAL t d).2.2 ∧
      (Destroy NORMAL t d).2.1 = d) := by
  constructor
  · intro ht
    have hnot : ¬ (0 < t) := not_lt.2 ht
    simp [Destroy, hnot]
  · intro ht
    simp [Destroy, ht]

/-- C4 witness: `Destroy 0` performs the unbounded drain wait; `Destroy 1`
races the timer and returns the drain outcome. -/
theorem C4_destroy_timeout_witness :
    ((0 : Int) ≤ 0 ∧
      DEvent.waitDrain ∈ (Destroy NORMAL 0 true).2.2 ∧
      DEvent.raceTimer ∉ (Destroy NORMAL 0 true).2.2) ∧
    ((0 : Int) < 1 ∧
      DEvent.raceTimer ∈ (Destroy NORMAL 1 false).2.2 ∧
      DEvent.waitDrain ∉ (Destroy NORMAL 1 false).2.2 ∧
      (Destroy NORMAL 1 false).2.1 = false) :=
  ⟨⟨le_refl 0, (C4_destroy_timeout 0 true).1 (le_refl 0)⟩,
    ⟨Int.zero_lt_one, (C4_destroy_timeout 1 false).2 Int.zero_lt_one⟩⟩

/-- C5: `Destroy` on an already-destroyed server changes nothing, performs
no side effect and returns false; `Destroy` on a normal server transitions
the state to destroyed — never back — and its first side effect is closing
the listener, so no new connection is accepted. -/
theorem C5_destroy_once (t : Int) (d : Bool) :
    Destroy DESTROYED t d = (DESTROYED, false, []) ∧
    (Destroy NORMAL t d).1 = DESTROYED ∧
    (Destroy NORMAL t d).2.2.head? = some DEvent.closeListener := by
  refine ⟨?_, ?_, ?_⟩
  · simp [Destroy, NORMAL, DESTROYED]
  · simp [Destroy]
  · simp [Destroy]

/-- C6: every `Destroy` call that performs the transition destroys the root
filters, the router and the component manager, in that order, as the final
side effects after the drain wait (unbounded or timer-raced) — whatever the
timeout and whether or not the drain completed in time. -/
theorem C6_teardown_always (t : Int) (d : Bool) :
    ∃ pre, (Destroy NORMAL t d).2.2 =
        pre ++ [DEvent.destroyRootFilters, DEvent.destroyRouter,
          DEvent.destroyComponents] ∧
      (DEvent.waitDrain ∈ pre ∨ DEvent.raceTimer ∈ pre) := by
  by_cases ht : 0 < t
  · exact ⟨[DEvent.closeListener, DEvent.raceTimer],
      by simp [Destroy, ht], Or.inr (by simp)⟩
  · exact ⟨[DEvent.closeListener, DEvent.waitDrain],
      by simp [Destroy, ht], Or.inl (by simp)⟩

/-- The connection states observed by the hook: `http.StateActive`,
`http.StateIdle`, `http.StateHijacked`. -/
inductive ConnState where
  | active
  | idle
  | hijacked
deriving DecidableEq

/-- Embedding of `Server.connStateHook` (package `zerver`, server.go): given
the server state and the tracked-connection count (`activeConns`), returns
the new count and whether the hook closed the connection. Active:
increment if the server state is `_NORMAL`, otherwise close without
counting; Idle: close when destroyed, and decrement; Hijacked: decrement,
never close. -/
def connStateHook (st : Nat) (count : Int) (cs : ConnState) : Int × Bool :=
  match cs with
  | ConnState.active =>
    if st = NORMAL then (count + 1, false) else (count, true)
  | ConnState.idle => (count - 1, st = DESTROYED)
  | ConnState.hijacked => (count - 1, false)

/-- C10: once the server is destroyed, a connection turning Active is closed
and the tracked count is unchanged; a connection turning Idle is closed and
the count decremented; a connection turning Hijacked is decremented and
never closed by the hook, destroyed or not. -/
theorem C10_conn_state_hook (c : Int) :
    connStateHook DESTROYED c ConnState.active = (c, true) ∧
    connStateHook DESTROYED c ConnState.idle = (c - 1, true) ∧
    (∀ st : Nat, connStateHook st c ConnState.hijacked = (c - 1, false)) := by
  refine ⟨?_, ?_, fun st => rfl⟩
  · simp [connStateHook, NORMAL, DESTROYED]
  · simp [connStateHook]

/-- Outcome of firing a task: the call panicked with a message, or the
matched handler ran with the payload, synchronously (`background = false`,
a direct call) or on a fresh goroutine (`background = true`). -/
inductive TaskOutcome where
  | panicked (msg : String)
  | ran (background : Bool) (value : String)
deriving DecidableEq

/-- Embedding of `Server.StartTask(path, value)` (package `zerver`,
server.go): match a task handler for the path; if none, panic via
`Log.Panicln`; otherwise call `handler.Handle(value)` directly — a plain
synchronous call, not a `go` statement. -/
def StartTask (taskHandlers : String → Option String)
    (path value : String) : TaskOutcome :=
  match taskHandlers path with
  | none => TaskOutcome.panicked ("No task handler found for: " ++ path)
  | some _ => TaskOutcome.ran false value

/-- C8 counterexample: with a task handler registered for the path,
`StartTask` runs the handler synchronously, not as a background task — the
outcome is a non-background run, refuting the claimed fire-and-forget
asynchronous invocation. -/
theorem C8_start_task_counterexample :
    StartTask (fun _ => some "H") "/t" "v" = TaskOutcome.ran false "v" ∧
    TaskOutcome.ran false "v" ≠ TaskOutcome.ran true "v" := by
  constructor
  · rfl
  · decide

/-- C8 (amended): `StartTask(path, value)` invokes the task handler
registered for the path synchronously, passing it the payload value; when
no task handler is registered for the path it panics rather than silently
doing nothing. -/
theorem C8_start_task (taskHandlers : String → Option String)
    (path value : String) :
    (∀ h, taskHandlers path = some h →
      StartTask taskHandlers path value = TaskOutcome.ran false value) ∧
    (taskHandlers path = none →
      StartTask taskHandlers path value =
        TaskOutcome.panicked ("No task handler found for: " ++ path)) := by
  constructor
  · intro h hh
    simp [StartTask, hh]
  · intro hn
    simp [StartTask, hn]

/-- C8 witness: a registered handler runs synchronously with the payload; a
missing handler panics with the path in the message. -/
theorem C8_start_task_witness :
    StartTask (fun _ => some "H") "/t" "v" = TaskOutcome.ran false "v" ∧
    StartTask (fun _ => none) "/t" "v" =
      TaskOutcome.panicked ("No task handler found for: " ++ "/t") :=
  ⟨(C8_start_task (fun _ => some "H") "/t" "v").1 "H" rfl,
    (C8_start_task (fun _ => none) "/t" "v").2 rfl⟩

/-- Failure conditions of component resolution: `ComponentNotFound(name)`
for an unregistered name, `CyclicDependency(name)` when resolution re-enters
a component already being initialized, and fuel exhaustion of the bounded
evaluator (never reached on the cycle scenarios proved below). -/
inductive ResolveErr where
  | componentNotFound (name : String)
  | cyclicDependency (name : String)
  | outOfFuel
deriving DecidableEq

/-- Modelled from the spec: the component registry of the Component Manager
(its source is not among the sources; only the dependency-cycle test
`TestCycleDependenced` is). Each named component is represented by the list
of component names its initialization routine resolves, in order, as `Dep`
in the test does. -/
abbrev Registry := List (String × List String)

/-- Modelled from the spec: the Component Manager's lazy `Resolve`.
Resolution marks a component Initializing (here: pushes its name on
`visiting`) before invoking its init routine, which resolves each declared
dependency in order; a component already Initialized (in `done`) is returned
at once; a `Resolve` reaching a component already in the Initializing state
fails with `CyclicDependency` naming the revisited component; an
unregistered name fails with `ComponentNotFound`. The target is either one
component name (`Sum.inl`) or a dependency list being initialized
(`Sum.inr`); `fuel` bounds the recursion depth of the evaluator. -/
def resolveAux (reg : Registry) : Nat → List String → List String →
    Sum String (List String) → Except ResolveErr (List String)
  | 0, _, _, _ => Except.error ResolveErr.outOfFuel
  | Nat.succ f, visiting, done, target =>
    match target with
    | Sum.inl name =>
      if name ∈ done then Except.ok done
      else if name ∈ visiting then
        Except.error (ResolveErr.cyclicDependency name)
      else
        match reg.lookup name with
        | none => Except.error (ResolveErr.componentNotFound name)
        | some deps =>
          match resolveAux reg f (name :: visiting) done (Sum.inr deps) with
          | Except.error e => Except.error e
          | Except.ok done' => Except.ok (name :: done')
    | Sum.inr [] => Except.ok done
    | Sum.inr (d :: ds) =>
      match resolveAux reg f visiting done (Sum.inl d) with
      | Except.error e => Except.error e
      | Except.ok done' => resolveAux reg f visiting done' (Sum.inr ds)

/-- Modelled from the spec: `Resolve(name)` on a registry with no component
yet initialized, with recursion bounded by `fuel`. On success it returns the
set of initialized components. -/
def Resolve (reg : Registry) (fuel : Nat) (name : String) :
    Except ResolveErr (List String) :=
  resolveAux reg fuel [] [] (Sum.inl name)

/-- C1: in a registry where component `a`'s initialization resolves `b` and
`b`'s resolves `a`, resolving either component terminates with a
`CyclicDependency` condition naming the revisited component — for every
sufficiently large recursion budget, so the evaluator never exhausts its
fuel and in particular does not recurse unboundedly. -/
theorem C1_cyclic_dependency (a b : String) (hab : a ≠ b) (fuel : Nat) :
    Resolve [(a, [b]), (b, [a])] (fuel + 5) a =
      Except.error (ResolveErr.cyclicDependency a) ∧
    Resolve [(a, [b]), (b, [a])] (fuel + 5) b =
      Except.error (ResolveErr.cyclicDependency b) := by
  have hba : b ≠ a := Ne.symm hab
  have hab' : (a == b) = false := beq_eq_false_iff_ne.2 hab
  have hba' : (b == a) = false := beq_eq_false_iff_ne.2 hba
  have haa : (a == a) = true := beq_self_eq_true a
  have hbb : (b == b) = true := beq_self_eq_true b
  constructor
  · show resolveAux _ (fuel + 5) [] [] (Sum.inl a) = _
    simp [Resolve, resolveAux, List.lookup, hab, hba, hab', hba', haa, hbb]
  · show resolveAux _ (fuel + 5) [] [] (Sum.inl b) = _
    simp [Resolve, resolveAux, List.lookup, hab, hba, hab', hba', haa, hbb]

/-- C1 witness: the registry of the regression test, `Comp1` depending on
`Comp2` and `Comp2` on `Comp1`: resolving either reports the cycle. -/
theorem C1_cyclic_dependency_witness :
    ("Comp1" : String) ≠ "Comp2" ∧
    Resolve [("Comp1", ["Comp2"]), ("Comp2", ["Comp1"])] 5 "Comp1" =
      Except.error (ResolveErr.cyclicDependency "Comp1") ∧
    Resolve [("Comp1", ["Comp2"]), ("Comp2", ["Comp1"])] 5 "Comp2" =
      Except.error (ResolveErr.cyclicDependency "Comp2") :=
  ⟨by decide, (C1_cyclic_dependency "Comp1" "Comp2" (by decide) 0).1,
    (C1_cyclic_dependency "Comp1" "Comp2" (by decide) 0).2⟩

end Zerver
